import Mathlib

/-!
Verification development for the CLI_Chat architecture-diagram generator
(`generate_architecture.py`).

The script has three phases:
* `analyze_codebase` (Source Scanner): lists `*.py` files of a directory,
  skips names starting with `__`, parses each file, and records per-module
  metadata; read/parse failures produce a warning and skip the file.
* `get_module_description` (Description Resolver): scans the first 5 lines of
  the source text for a triple-quote marker, otherwise falls back to a static
  seven-entry table, otherwise synthesizes a name-based description.
* `generate_mermaid_diagram` (Diagram Emitter): returns a constant Mermaid
  template, ignoring the scanned data.

The embedding below models Python strings as `List Char` (with Lean `String`
for file names), the filesystem as an `Option (List PFile)` (none = the
directory does not exist; the list is the result of globbing `*.py`), the
Python `ast` parse as an oracle field `parsed : Except String (List PyNode)`
on each file, and printed warnings as an output list of strings.
-/

/-- The double-quote character, written via its code point. -/
def dquote : Char := Char.ofNat 34

/-- The single-quote character, written via its code point. -/
def squote : Char := Char.ofNat 39

/-- The characters stripped by Python `str.strip()` (ASCII whitespace:
space, tab, newline, carriage return, vertical tab, form feed). -/
def isPySpace (c : Char) : Bool :=
  c = ' ' || c = Char.ofNat 9 || c = Char.ofNat 10 || c = Char.ofNat 13 ||
  c = Char.ofNat 11 || c = Char.ofNat 12

/-- Python `str.strip()`: drop whitespace from both ends. -/
def pyStrip (l : List Char) : List Char :=
  ((l.dropWhile isPySpace).reverse.dropWhile isPySpace).reverse

/-- Helper for Python `str.split`: accumulate the current field (reversed). -/
def splitNlAux : List Char → List Char → List (List Char)
  | [], acc => [acc.reverse]
  | c :: rest, acc =>
      if c = Char.ofNat 10 then acc.reverse :: splitNlAux rest []
      else splitNlAux rest (c :: acc)

/-- Python `content.split("\n")`: split on newline, keeping empty fields
(so the empty text yields one empty line). -/
def splitOnNl (l : List Char) : List (List Char) := splitNlAux l []

/-- Whether three consecutive copies of `q` occur in the list (the Python
substring test `q*3 in line`). -/
def hasRun3 (q : Char) : List Char → Bool
  | x :: y :: z :: rest => (x = q && y = q && z = q) || hasRun3 q (y :: z :: rest)
  | _ => false

/-- Python `'"""' in line or "'''" in line`. -/
def hasTripleQuote (l : List Char) : Bool :=
  hasRun3 dquote l || hasRun3 squote l

/-- Python `line.replace(q*3, "")`: remove every occurrence of the
three-character run `q q q`, scanning left to right (non-overlapping). -/
def removeTriple (q : Char) : List Char → List Char
  | x :: y :: z :: rest =>
      if x = q && y = q && z = q then removeTriple q rest
      else x :: removeTriple q (y :: z :: rest)
  | l => l

/-- The static fallback table of `get_module_description`
(seven module names mapped to fixed descriptions). -/
def fallbackDescriptions : List (List Char × List Char) :=
  [("cli".data, "CLI with argument parsing".data),
   ("config".data, "Configuration & environment".data),
   ("data_loader".data, "Data ingestion & parsing".data),
   ("index_manager".data, "Vector indexing & storage".data),
   ("ageny".data, "AI agent & query engines".data),
   ("google_llm_init".data, "Google Gemini LLM setup".data),
   ("custom_console".data, "Console UI & formatting".data)]

/-- Python `dict.get`: first binding of the key, if any. -/
def dictGet (k : List Char) : List (List Char × List Char) → Option (List Char)
  | [] => none
  | (k', v) :: rest => if k' = k then some v else dictGet k rest

/-- The Description Resolver, `get_module_description(content, module_name)`:
scan the first 5 lines (each stripped) for a triple-quote marker; on the first
hit, remove the `"""` runs, then the `'''` runs, strip, and truncate to 40
characters plus `"..."` when longer; otherwise consult the fallback table,
defaulting to `"<module_name> module"`. -/
def get_module_description (content : List Char) (module_name : List Char) :
    List Char :=
  match (((splitOnNl content).take 5).map pyStrip).find? hasTripleQuote with
  | some line =>
      let desc := pyStrip (removeTriple squote (removeTriple dquote line))
      if desc.length > 40 then desc.take 40 ++ "...".data else desc
  | none =>
      match dictGet module_name fallbackDescriptions with
      | some d => d
      | none => module_name ++ " module".data

/-- A node of the Python syntax tree, as far as the scanner inspects it:
function definitions, class definitions, and any other node, each with its
list of child nodes (`ast.iter_child_nodes` order). -/
inductive PyNode where
  | funcDef (name : String) (body : List PyNode)
  | classDef (name : String) (body : List PyNode)
  | other (body : List PyNode)
deriving Repr

/-- The children of a node. -/
def PyNode.body : PyNode → List PyNode
  | .funcDef _ b => b
  | .classDef _ b => b
  | .other b => b

mutual

/-- Size of a node, for termination of the breadth-first walk. -/
def PyNode.size : PyNode → Nat
  | .funcDef _ b => 1 + sizeL b
  | .classDef _ b => 1 + sizeL b
  | .other b => 1 + sizeL b

/-- Total size of a list of nodes. -/
def sizeL : List PyNode → Nat
  | [] => 0
  | n :: rest => PyNode.size n + sizeL rest

end

theorem sizeL_append (a b : List PyNode) : sizeL (a ++ b) = sizeL a + sizeL b := by
  induction a with
  | nil => simp [sizeL]
  | cons n rest ih => simp [sizeL, ih]; omega

theorem size_eq_body (n : PyNode) : PyNode.size n = 1 + sizeL n.body := by
  cases n <;> rfl

/-- Python `ast.walk`: breadth-first traversal of the queue of nodes,
each popped node followed by its children appended to the queue. -/
def walk : List PyNode → List PyNode
  | [] => []
  | n :: queue => n :: walk (queue ++ n.body)
termination_by l => sizeL l
decreasing_by
  simp [sizeL_append, sizeL, size_eq_body]
  omega

mutual

/-- All nodes occurring in (the subtree rooted at) a node, the node itself
included. -/
def PyNode.reach : PyNode → List PyNode
  | .funcDef nm b => .funcDef nm b :: reachL b
  | .classDef nm b => .classDef nm b :: reachL b
  | .other b => .other b :: reachL b

/-- All nodes occurring anywhere in a forest of nodes. -/
def reachL : List PyNode → List PyNode
  | [] => []
  | n :: rest => PyNode.reach n ++ reachL rest

end

theorem reach_eq (n : PyNode) : PyNode.reach n = n :: reachL n.body := by
  cases n <;> rfl

theorem reachL_append (a b : List PyNode) :
    reachL (a ++ b) = reachL a ++ reachL b := by
  induction a with
  | nil => simp [reachL]
  | cons n rest ih => simp [reachL, ih]

/-- Breadth-first `walk` visits every node occurring anywhere in the forest:
the traversal is over the whole tree, not only the top level. -/
theorem reachL_subset_walk : ∀ (l : List PyNode) (a : PyNode),
    a ∈ reachL l → a ∈ walk l
  | [], a, h => by simp [reachL] at h
  | n :: queue, a, h => by
      have hw : walk (n :: queue) = n :: walk (queue ++ n.body) := by
        simp [walk]
      rw [hw]
      rw [reachL, reach_eq] at h
      rcases List.mem_append.mp h with h1 | h2
      · rcases List.mem_cons.mp h1 with rfl | hb
        · exact List.mem_cons_self a _
        · refine List.mem_cons_of_mem _ (reachL_subset_walk (queue ++ n.body) a ?_)
          rw [reachL_append]
          exact List.mem_append.mpr (Or.inr hb)
      · refine List.mem_cons_of_mem _ (reachL_subset_walk (queue ++ n.body) a ?_)
        rw [reachL_append]
        exact List.mem_append.mpr (Or.inl h2)
termination_by l => sizeL l
decreasing_by
  all_goals simp [sizeL_append, sizeL, size_eq_body]
  all_goals omega

/-- The function name of a node, when it is a function definition
(the `isinstance(node, ast.FunctionDef)` filter). -/
def funcName : PyNode → Option String
  | .funcDef nm _ => some nm
  | _ => none

/-- The class name of a node, when it is a class definition
(the `isinstance(node, ast.ClassDef)` filter). -/
def className : PyNode → Option String
  | .classDef nm _ => some nm
  | _ => none

/-- Python `[node.name for node in ast.walk(tree) if isinstance(node,
ast.FunctionDef)]` (the module node itself contributes nothing). -/
def moduleFunctions (tree : List PyNode) : List String :=
  (walk tree).filterMap funcName

/-- Python `[node.name for node in ast.walk(tree) if isinstance(node,
ast.ClassDef)]`. -/
def moduleClasses (tree : List PyNode) : List String :=
  (walk tree).filterMap className

/-- The constant Mermaid template returned by the Diagram Emitter. -/
def mermaidTemplate : String :=
  "```mermaid
graph TB
    %% Entry Point
    CLI[\"CLI Entry Point<br/>src/cli.py\"] --> ARG[\"Argument Parser<br/>--load-data | --chat\"]

    %% Configuration Layer
    CONFIG[\"Configuration<br/>src/config.py\"] --> ENV[\"Environment Variables<br/>.env file<br/>GOOGLE_API_KEY\"]
    CONFIG --> PATHS[\"Path Configuration<br/>DATA_DIR, STORAGE_DIR<br/>YEARS, CHUNK_SIZE\"]

    %% Data Flow
    ARG --> LOAD{Command Type}

    %% Load Data Path
    LOAD -->|\"load-data\"| DL[\"Data Loader<br/>src/data_loader.py\"]
    DL --> UREAD[\"UnstructuredReader<br/>HTML Files\"]
    UREAD --> DOCS[\"Document Set<br/>2019-2022 UBER<br/>SEC 10-K Filings\"]
    DOCS --> IM[\"Index Manager<br/>src/index_manager.py\"]
    IM --> EMB[\"Google GenAI<br/>Embeddings\"]
    EMB --> VSI[\"Vector Store Index<br/>Per Year\"]
    VSI --> PERSIST[\"Persist Indices<br/>storage/year/\"]

    %% Chat Path
    LOAD -->|\"chat\"| LIM[\"Load Indices<br/>src/index_manager.py\"]
    LIM --> LIND[\"Load Persisted<br/>Vector Indices\"]

    %% Agent Creation
    LIND --> AGENT[\"Agent Creation<br/>src/ageny.py\"]
    AGENT --> TOOLS[\"Create Tools<br/>QueryEngineTool<br/>SubQuestionQueryEngine\"]

    %% LLM Integration
    AGENT --> GLLM[\"Google LLM Init<br/>src/google_llm_init.py\"]
    GLLM --> GEMINI[\"Google GenAI<br/>gemini-2.5-flash\"]

    %% System Components
    AGENT --> SP[\"System Prompt<br/>system_prompt.txt\"]
    SP --> FUNC_AGENT[\"FunctionAgent<br/>LlamaIndex\"]

    %% Chat Interface
    FUNC_AGENT --> CHAT[\"Chat Loop<br/>Interactive Input\"]
    CHAT --> CONSOLE[\"Custom Console<br/>src/custom_console.py\"]
    CONSOLE --> UI[\"User Interface<br/>Colors, Spinners,<br/>Timers, ASCII Art\"]

    %% External Dependencies
    subgraph \"External Libraries\"
        LLAMA[\"LlamaIndex Core<br/>VectorStoreIndex<br/>QueryEngine<br/>FunctionAgent\"]
        GAI[\"Google GenAI<br/>LLM + Embeddings\"]
        UNST[\"Unstructured.io<br/>Document Reader\"]
        DOTENV[\"python-dotenv<br/>Environment Loading\"]
    end

    %% Styling
    classDef entry fill:#e1f5fe,stroke:#01579b,stroke-width:2px,color:#01579b
    classDef config fill:#f3e5f5,stroke:#4a148c,stroke-width:2px,color:#4a148c
    classDef data fill:#e8f5e8,stroke:#1b5e20,stroke-width:2px,color:#1b5e20
    classDef ai fill:#fff3e0,stroke:#e65100,stroke-width:2px,color:#e65100
    classDef ui fill:#fce4ec,stroke:#880e4f,stroke-width:2px,color:#880e4f
    classDef external fill:#f5f5f5,stroke:#424242,stroke-width:1px,color:#424242

    class CLI,ARG entry
    class CONFIG,ENV,PATHS config
    class DL,UREAD,DOCS,IM,VSI,PERSIST,LIM,LIND data
    class AGENT,TOOLS,FUNC_AGENT,GLLM,GEMINI,SP ai
    class CHAT,CONSOLE,UI ui
    class LLAMA,GAI,UNST,DOTENV external

    %% Flow Labels
    CLI -.->|\"python -m src.cli\"| ARG
    DL -.->|\"Load UBER HTML\"| UREAD
    IM -.->|\"Create Vector Indices\"| VSI
    AGENT -.->|\"Setup Query Tools\"| TOOLS
    GLLM -.->|\"Initialize Gemini\"| GEMINI
    FUNC_AGENT -.->|\"RAG Chat\"| CHAT
    CONSOLE -.->|\"Format Output\"| UI
```"

/-- One file of the scanned directory, as returned by `Path.glob("*.py")`:
its file name (always ending in `.py`), its text content (the result of
reading it), and the outcome of `ast.parse` on that content — an oracle
field, since Python parsing itself is outside the scanner; a read failure is
folded into the same `error` case, as both raise inside the same `try`. -/
structure PFile where
  name : String
  content : List Char
  parsed : Except String (List PyNode)

/-- Python `Path.stem` for a `*.py` file: the name without the final
three-character `.py` suffix, on the underlying character list. -/
def PFile.stem (f : PFile) : String :=
  String.mk (f.name.data.take (f.name.data.length - 3))

/-- Python `s.startswith(p)`, modelled on the underlying character lists. -/
def pyStartsWith (s p : String) : Bool := p.data.isPrefixOf s.data

/-- Whether the file is skipped by `py_file.name.startswith("__")`. -/
def PFile.excluded (f : PFile) : Bool := pyStartsWith f.name "__"

/-- Whether reading or parsing the file raises (the `except` branch). -/
def PFile.broken (f : PFile) : Bool :=
  match f.parsed with
  | .error _ => true
  | .ok _ => false

/-- A candidate file whose read and parse both succeed, so that it
contributes an entry to the module mapping. -/
def PFile.okCandidate (f : PFile) : Bool := !f.excluded && !f.broken

/-- A candidate (not `__`-prefixed) file whose read or parse fails. -/
def PFile.failedCandidate (f : PFile) : Bool := !f.excluded && f.broken

/-- The per-module record stored in the `modules` dict: `file`,
`description`, `functions` (first 3) and `classes` (first 2). -/
structure ModuleInfo where
  file : String
  description : List Char
  functions : List String
  classes : List String
deriving Repr, DecidableEq

/-- The entry built for one successfully parsed file: note the `file` field
is the literal f-string `"src/{py_file.name}"`, with a hard-coded `src/`
prefix independent of the scanned directory. -/
def mkModuleInfo (f : PFile) (tree : List PyNode) : ModuleInfo :=
  { file := "src/" ++ f.name
  , description := get_module_description f.content f.stem.data
  , functions := (moduleFunctions tree).take 3
  , classes := (moduleClasses tree).take 2 }

/-- Python dict assignment `d[k] = v`: replace the value in place when the
key is present, append the binding otherwise. -/
def dictInsert (k : String) (v : ModuleInfo) :
    List (String × ModuleInfo) → List (String × ModuleInfo)
  | [] => [(k, v)]
  | (k', v') :: rest =>
      if k' = k then (k, v) :: rest else (k', v') :: dictInsert k v rest

/-- One iteration of the scanner loop on accumulated (warnings, modules):
skip `__`-prefixed names; on a read/parse failure append the per-file
warning; otherwise insert the module entry keyed by the file stem. -/
def processFile (d : String) (f : PFile)
    (acc : List String × List (String × ModuleInfo)) :
    List String × List (String × ModuleInfo) :=
  if f.excluded then acc
  else
    match f.parsed with
    | .error e =>
        (acc.1 ++ ["Warning: Could not analyze " ++ d ++ "/" ++ f.name ++ ": " ++ e],
         acc.2)
    | .ok tree => (acc.1, dictInsert f.stem (mkModuleInfo f tree) acc.2)

/-- The scanner loop over the globbed files, threading the accumulator left
to right as the Python `for` loop does. -/
def analyzeFrom (d : String) (acc : List String × List (String × ModuleInfo)) :
    List PFile → List String × List (String × ModuleInfo)
  | [] => acc
  | f :: rest => analyzeFrom d (processFile d f acc) rest

/-- The Source Scanner, `analyze_codebase(src_dir)`: `none` models a
directory that does not exist (warning, empty mapping); otherwise the glob
result is scanned file by file. The first component collects the printed
warnings, the second is the `modules` dict in insertion order. -/
def analyze_codebase (dir : Option (List PFile)) (src_dir : String) :
    List String × List (String × ModuleInfo) :=
  match dir with
  | none => (["Warning: " ++ src_dir ++ " directory not found"], [])
  | some files => analyzeFrom src_dir ([], []) files

/-- The Diagram Emitter, `generate_mermaid_diagram(modules)`: the module
mapping parameter is not consumed; the body is the constant template. -/
def generate_mermaid_diagram (modules : List (String × ModuleInfo)) : String :=
  mermaidTemplate

/-!  Shared helper lemmas. -/

theorem find?_marker_none (content : List Char)
    (h : ∀ l ∈ ((splitOnNl content).take 5).map pyStrip, hasTripleQuote l = false) :
    (((splitOnNl content).take 5).map pyStrip).find? hasTripleQuote = none :=
  List.find?_eq_none.mpr (by intro x hx; simp [h x hx])

/-- With no marker in the first 5 stripped lines, the resolver reduces to the
fallback lookup. -/
theorem gmd_no_marker (content module_name : List Char)
    (h : ∀ l ∈ ((splitOnNl content).take 5).map pyStrip, hasTripleQuote l = false) :
    get_module_description content module_name
      = match dictGet module_name fallbackDescriptions with
        | some d => d
        | none => module_name ++ " module".data := by
  unfold get_module_description
  rw [find?_marker_none content h]

theorem dictGet_mem (k v : List Char) :
    ∀ t, dictGet k t = some v → (k, v) ∈ t := by
  intro t
  induction t with
  | nil => intro h; simp [dictGet] at h
  | cons p rest ih =>
      obtain ⟨k', v'⟩ := p
      intro h
      simp only [dictGet] at h
      by_cases hk : k' = k
      · rw [if_pos hk] at h
        subst hk
        injection h with h
        subst h
        exact List.mem_cons_self _ _
      · rw [if_neg hk] at h
        exact List.mem_cons_of_mem _ (ih h)

/-- Every value of the fallback table is at most 40 characters and differs
from the synthesized description of its own key. -/
theorem fallback_value_bounds (k v : List Char)
    (h : (k, v) ∈ fallbackDescriptions) :
    v.length ≤ 40 ∧ v ≠ k ++ " module".data := by
  simp only [fallbackDescriptions, List.mem_cons, List.not_mem_nil, or_false,
    Prod.mk.injEq] at h
  rcases h with ⟨rfl, rfl⟩ | ⟨rfl, rfl⟩ | ⟨rfl, rfl⟩ | ⟨rfl, rfl⟩ | ⟨rfl, rfl⟩ |
    ⟨rfl, rfl⟩ | ⟨rfl, rfl⟩ <;> exact ⟨by decide, by decide⟩

theorem dictInsert_length_fresh (k : String) (v : ModuleInfo) :
    ∀ ms : List (String × ModuleInfo), k ∉ ms.map Prod.fst →
      (dictInsert k v ms).length = ms.length + 1 := by
  intro ms
  induction ms with
  | nil => intro _; rfl
  | cons p rest ih =>
      obtain ⟨k', v'⟩ := p
      intro h
      simp only [List.map_cons, List.mem_cons] at h
      push_neg at h
      simp only [dictInsert]
      rw [if_neg (by intro hh; exact h.1 hh.symm)]
      simp [ih h.2]

theorem dictInsert_keys (k : String) (v : ModuleInfo) :
    ∀ (ms : List (String × ModuleInfo)) (x : String),
      x ∈ (dictInsert k v ms).map Prod.fst → x = k ∨ x ∈ ms.map Prod.fst := by
  intro ms
  induction ms with
  | nil => intro x hx; simp [dictInsert] at hx; exact Or.inl hx
  | cons p rest ih =>
      obtain ⟨k', v'⟩ := p
      intro x hx
      simp only [dictInsert] at hx
      by_cases hk : k' = k
      · rw [if_pos hk] at hx
        simp only [List.map_cons, List.mem_cons] at hx
        rcases hx with rfl | hx
        · exact Or.inl rfl
        · exact Or.inr (List.mem_cons_of_mem _ hx)
      · rw [if_neg hk] at hx
        simp only [List.map_cons, List.mem_cons] at hx
        rcases hx with rfl | hx
        · exact Or.inr (List.mem_cons_self _ _)
        · rcases ih x hx with h | h
          · exact Or.inl h
          · exact Or.inr (List.mem_cons_of_mem _ h)

/-- A `__`-prefixed file leaves the accumulator untouched. -/
theorem processFile_skip (d : String) (f : PFile)
    (acc : List String × List (String × ModuleInfo))
    (h : f.excluded = true) : processFile d f acc = acc := by
  unfold processFile
  rw [if_pos h]

/-- A successfully parsed candidate file inserts its module entry. -/
theorem processFile_entry (d : String) (f : PFile) (tree : List PyNode)
    (acc : List String × List (String × ModuleInfo))
    (hname : f.excluded = false) (h : f.parsed = Except.ok tree) :
    processFile d f acc
      = (acc.1, dictInsert f.stem (mkModuleInfo f tree) acc.2) := by
  unfold processFile
  rw [if_neg (by simp [hname]), h]

theorem analyzeFrom_append (d : String) (xs ys : List PFile) :
    ∀ acc, analyzeFrom d acc (xs ++ ys)
      = analyzeFrom d (analyzeFrom d acc xs) ys := by
  induction xs with
  | nil => intro acc; rfl
  | cons f rest ih =>
      intro acc
      simp only [List.cons_append, analyzeFrom]
      exact ih _

/-- The module mapping built by the scan never depends on the warnings
accumulated so far. -/
theorem analyzeFrom_snd_congr (d : String) (files : List PFile) :
    ∀ ws ws' ms, (analyzeFrom d (ws, ms) files).2
      = (analyzeFrom d (ws', ms) files).2 := by
  induction files with
  | nil => intro ws ws' ms; rfl
  | cons f rest ih =>
      intro ws ws' ms
      simp only [analyzeFrom, processFile]
      split
      · exact ih ws ws' ms
      · split
        · exact ih _ _ _
        · exact ih _ _ _

/-- Warnings are only ever appended by the scan. -/
theorem analyzeFrom_warnings_mono (d : String) (files : List PFile) :
    ∀ ws ms w, w ∈ ws → w ∈ (analyzeFrom d (ws, ms) files).1 := by
  induction files with
  | nil => intro ws ms w hw; exact hw
  | cons f rest ih =>
      intro ws ms w hw
      simp only [analyzeFrom, processFile]
      split
      · exact ih ws ms w hw
      · split
        · exact ih _ _ w (List.mem_append.mpr (Or.inl hw))
        · exact ih _ _ w hw

/-- Every file is excluded, a failing candidate, or a succeeding candidate. -/
theorem count_partition : ∀ files : List PFile,
    (files.filter PFile.excluded).length
      + (files.filter PFile.failedCandidate).length
      + (files.filter PFile.okCandidate).length = files.length := by
  intro files
  induction files with
  | nil => rfl
  | cons f rest ih =>
      simp only [List.filter_cons]
      cases hE : f.excluded <;> cases hB : f.broken <;>
        simp [PFile.failedCandidate, PFile.okCandidate, hE, hB,
          List.length_cons, ih] <;> omega

/-- Size of the mapping produced by the scan loop: the accumulated dict grows
by one entry per succeeding candidate, provided their stems are fresh. -/
theorem analyzeFrom_snd_length (d : String) :
    ∀ (files : List PFile) (ws : List String)
      (ms : List (String × ModuleInfo)),
      (∀ f ∈ files, f.okCandidate = true → f.stem ∉ ms.map Prod.fst) →
      ((files.filter PFile.okCandidate).map PFile.stem).Nodup →
      (analyzeFrom d (ws, ms) files).2.length
        = ms.length + (files.filter PFile.okCandidate).length := by
  intro files
  induction files with
  | nil => intro ws ms _ _; simp [analyzeFrom]
  | cons f rest ih =>
      intro ws ms hfresh hnd
      simp only [analyzeFrom, processFile]
      by_cases hE : f.excluded
      · have hok : f.okCandidate = false := by
          simp [PFile.okCandidate, hE]
        rw [if_pos hE]
        rw [ih ws ms (fun g hg => hfresh g (List.mem_cons_of_mem _ hg))
          (by simpa [List.filter_cons, hok] using hnd)]
        simp [List.filter_cons, hok]
      · rw [if_neg hE]
        rcases hp : f.parsed with e | tree
        · have hok : f.okCandidate = false := by
            simp [PFile.okCandidate, PFile.broken, hp]
          rw [ih _ ms (fun g hg => hfresh g (List.mem_cons_of_mem _ hg))
            (by simpa [List.filter_cons, hok] using hnd)]
          simp [List.filter_cons, hok]
        · have hok : f.okCandidate = true := by
            simp [PFile.okCandidate, PFile.broken, hp,
              Bool.not_eq_true] at hE ⊢
            exact hE
          have hfreshf : f.stem ∉ ms.map Prod.fst :=
            hfresh f (List.mem_cons_self _ _) hok
          have hnd' := hnd
          rw [List.filter_cons, if_pos hok] at hnd'
          simp only [List.map_cons, List.nodup_cons] at hnd'
          rw [ih ws (dictInsert f.stem (mkModuleInfo f tree) ms) ?_ hnd'.2]
          · rw [dictInsert_length_fresh _ _ ms hfreshf]
            simp [List.filter_cons, hok]
            omega
          · intro g hg hgok
            intro hmem
            rcases dictInsert_keys _ _ ms _ hmem with h | h
            · apply hnd'.1
              rw [← h]
              exact List.mem_map.mpr ⟨g, List.mem_filter.mpr ⟨hg, hgok⟩, rfl⟩
            · exact hfresh g (List.mem_cons_of_mem _ hg) hgok h

/-!  The claims. -/

/-- C1: for every pair of module mappings (including the empty mapping) the
Diagram Emitter returns the same string — its output is a constant
independent of the discovered modules, so two runs on identical inputs
produce byte-identical output content. -/
theorem c1_emitter_constant (m1 m2 : List (String × ModuleInfo)) :
    generate_mermaid_diagram m1 = generate_mermaid_diagram m2 := rfl

/-- C2: when some line among the first 5 of the source text carries a
triple-quote marker, the resolver returns the first such line with the quote
markers and surrounding whitespace stripped: unmodified when at most 40
characters, and otherwise exactly its first 40 characters followed by the
three-character ellipsis marker. -/
theorem c2_docstring_branch (content module_name line : List Char)
    (h : (((splitOnNl content).take 5).map pyStrip).find? hasTripleQuote
      = some line) :
    ((pyStrip (removeTriple squote (removeTriple dquote line))).length ≤ 40 →
      get_module_description content module_name
        = pyStrip (removeTriple squote (removeTriple dquote line)))
    ∧ (40 < (pyStrip (removeTriple squote (removeTriple dquote line))).length →
      get_module_description content module_name
        = (pyStrip (removeTriple squote (removeTriple dquote line))).take 40
          ++ "...".data) := by
  unfold get_module_description
  rw [h]
  constructor
  · intro hle
    simp only
    rw [if_neg (by omega)]
  · intro hgt
    simp only
    rw [if_pos (by omega)]

/-- C2 witness: the two concrete scenarios of the spec — a short docstring
is returned unmodified, and a 60-character docstring is cut to its first 40
characters plus the ellipsis. -/
theorem c2_docstring_branch_witness :
    ((((splitOnNl "\"\"\"Example description here\"\"\"".data).take 5).map
        pyStrip).find? hasTripleQuote
      = some "\"\"\"Example description here\"\"\"".data)
    ∧ get_module_description "\"\"\"Example description here\"\"\"".data "x".data
        = "Example description here".data
    ∧ get_module_description
        "\"\"\"Sixty characters of module description text for truncation!!\"\"\"".data
        "x".data
      = "Sixty characters of module description t".data ++ "...".data := by
  refine ⟨by decide, ?_, ?_⟩
  · have h := (c2_docstring_branch
      "\"\"\"Example description here\"\"\"".data "x".data
      "\"\"\"Example description here\"\"\"".data (by decide)).1 (by decide)
    rw [h]; decide
  · have h := (c2_docstring_branch
      "\"\"\"Sixty characters of module description text for truncation!!\"\"\"".data
      "x".data
      "\"\"\"Sixty characters of module description text for truncation!!\"\"\"".data
      (by decide)).2 (by decide)
    rw [h]; decide

/-- C3: with no triple-quote marker in the first 5 lines, the resolver
returns exactly the fallback table's value when the module name is one of
its keys (never the synthesized string), and the synthesized
"<module_name> module" when the name is absent from the table. -/
theorem c3_fallback_table (content module_name : List Char)
    (h : ∀ l ∈ ((splitOnNl content).take 5).map pyStrip,
      hasTripleQuote l = false) :
    (∀ v, dictGet module_name fallbackDescriptions = some v →
      get_module_description content module_name = v
      ∧ get_module_description content module_name
          ≠ module_name ++ " module".data)
    ∧ (dictGet module_name fallbackDescriptions = none →
      get_module_description content module_name
        = module_name ++ " module".data) := by
  have hg := gmd_no_marker content module_name h
  constructor
  · intro v hv
    rw [hg, hv]
    refine ⟨rfl, ?_⟩
    exact (fallback_value_bounds module_name v (dictGet_mem _ _ _ hv)).2
  · intro hv
    rw [hg, hv]

/-- C3 witness: a table key resolves to the table's value (not the
synthesized string) and an unknown name resolves to the synthesized
string, on marker-free source text. -/
theorem c3_fallback_table_witness :
    (get_module_description "x = 1".data "cli".data
        = "CLI with argument parsing".data
      ∧ get_module_description "x = 1".data "cli".data
          ≠ "cli".data ++ " module".data)
    ∧ get_module_description "x = 1".data "foo".data
        = "foo".data ++ " module".data := by
  refine ⟨?_, ?_⟩
  · exact (c3_fallback_table "x = 1".data "cli".data (by decide)).1
      "CLI with argument parsing".data (by decide)
  · exact (c3_fallback_table "x = 1".data "foo".data (by decide)).2 (by decide)

/-- C4: for every directory path that does not exist, the scanner emits the
warning, returns the empty mapping, and (being a total function) does not
raise. -/
theorem c4_missing_directory (src_dir : String) :
    analyze_codebase none src_dir
      = (["Warning: " ++ src_dir ++ " directory not found"], []) := rfl

/-- C5: a candidate file whose read or parse fails is omitted from the
mapping with a per-file warning while all other files' entries are preserved
(one failure never aborts the scan), and the mapping's size equals the
number of globbed files minus the failing candidates minus the
`__`-prefixed files (stems of succeeding candidates are distinct, as file
names of one directory are). -/
theorem c5_parse_failure_isolation (d : String) (pre post : List PFile)
    (bad : PFile) (e : String) (files : List PFile)
    (hexcl : bad.excluded = false) (herr : bad.parsed = Except.error e)
    (hnd : ((files.filter PFile.okCandidate).map PFile.stem).Nodup) :
    (analyze_codebase (some (pre ++ bad :: post)) d).2
      = (analyze_codebase (some (pre ++ post)) d).2
    ∧ ("Warning: Could not analyze " ++ d ++ "/" ++ bad.name ++ ": " ++ e)
        ∈ (analyze_codebase (some (pre ++ bad :: post)) d).1
    ∧ (analyze_codebase (some files) d).2.length
        = files.length - (files.filter PFile.failedCandidate).length
          - (files.filter PFile.excluded).length := by
  have hbad : ∀ acc, processFile d bad acc
      = (acc.1 ++
          ["Warning: Could not analyze " ++ d ++ "/" ++ bad.name ++ ": " ++ e],
         acc.2) := by
    intro acc
    unfold processFile
    rw [if_neg (by simp [hexcl]), herr]
  refine ⟨?_, ?_, ?_⟩
  · show (analyzeFrom d ([], []) (pre ++ bad :: post)).2
      = (analyzeFrom d ([], []) (pre ++ post)).2
    rw [analyzeFrom_append, analyzeFrom_append]
    obtain ⟨ws, ms⟩ : List String × List (String × ModuleInfo) :=
      analyzeFrom d ([], []) pre
    simp only [analyzeFrom, hbad]
    exact analyzeFrom_snd_congr d post _ ws ms
  · show _ ∈ (analyzeFrom d ([], []) (pre ++ bad :: post)).1
    rw [analyzeFrom_append]
    obtain ⟨ws, ms⟩ : List String × List (String × ModuleInfo) :=
      analyzeFrom d ([], []) pre
    simp only [analyzeFrom, hbad]
    exact analyzeFrom_warnings_mono d post _ ms _
      (List.mem_append.mpr (Or.inr (List.mem_singleton.mpr rfl)))
  · show (analyzeFrom d ([], []) files).2.length = _
    rw [analyzeFrom_snd_length d files [] [] (by simp) hnd]
    have := count_partition files
    simp only [List.length_nil]
    omega

/-- C5 witness: a directory of a good file, a file with a syntax error, and
an excluded package marker — the bad file is dropped with its warning, the
good entry survives, and the size arithmetic holds on a concrete listing. -/
theorem c5_parse_failure_isolation_witness :
    (analyze_codebase (some ([] ++ (⟨"bad.py", "x = (".data,
        Except.error "invalid syntax"⟩ : PFile) ::
        [(⟨"cli.py", "".data, Except.ok []⟩ : PFile)])) "src").2
      = (analyze_codebase (some ([] ++
          [(⟨"cli.py", "".data, Except.ok []⟩ : PFile)])) "src").2
    ∧ ("Warning: Could not analyze " ++ "src" ++ "/" ++ "bad.py" ++ ": "
        ++ "invalid syntax")
        ∈ (analyze_codebase (some ([] ++ (⟨"bad.py", "x = (".data,
            Except.error "invalid syntax"⟩ : PFile) ::
            [(⟨"cli.py", "".data, Except.ok []⟩ : PFile)])) "src").1
    ∧ (analyze_codebase (some [(⟨"cli.py", "".data, Except.ok []⟩ : PFile),
        (⟨"bad.py", "x = (".data, Except.error "invalid syntax"⟩ : PFile),
        (⟨"__init__.py", "".data, Except.ok []⟩ : PFile)]) "src").2.length
      = 3 - 1 - 1 := by
  have h := c5_parse_failure_isolation "src" []
    [(⟨"cli.py", "".data, Except.ok []⟩ : PFile)]
    (⟨"bad.py", "x = (".data, Except.error "invalid syntax"⟩ : PFile)
    "invalid syntax"
    [(⟨"cli.py", "".data, Except.ok []⟩ : PFile),
     (⟨"bad.py", "x = (".data, Except.error "invalid syntax"⟩ : PFile),
     (⟨"__init__.py", "".data, Except.ok []⟩ : PFile)]
    (by decide) rfl (by decide)
  refine ⟨h.1, h.2.1, ?_⟩
  have h3 := h.2.2
  rw [h3]
  decide

/-- C6: for every successfully parsed file, the scanner's entry keeps the
first 3 function names and the first 2 class names of the breadth-first
walk, and the name lists the walk filters are drawn from cover every
function and class definition occurring anywhere in the tree, not only at
top level. -/
theorem c6_whole_tree_names (f : PFile) (tree : List PyNode) (d : String)
    (hname : f.excluded = false) (h : f.parsed = Except.ok tree) :
    (analyze_codebase (some [f]) d).2 = [(f.stem, mkModuleInfo f tree)]
    ∧ (mkModuleInfo f tree).functions = (moduleFunctions tree).take 3
    ∧ (mkModuleInfo f tree).classes = (moduleClasses tree).take 2
    ∧ (∀ nm b, PyNode.funcDef nm b ∈ reachL tree → nm ∈ moduleFunctions tree)
    ∧ (∀ nm b, PyNode.classDef nm b ∈ reachL tree
        → nm ∈ moduleClasses tree) := by
  refine ⟨?_, rfl, rfl, ?_, ?_⟩
  · show (analyzeFrom d ([], []) [f]).2 = _
    simp only [analyzeFrom, processFile]
    rw [if_neg (by simp [hname]), h]
    rfl
  · intro nm b hmem
    exact List.mem_filterMap.mpr
      ⟨PyNode.funcDef nm b, reachL_subset_walk tree _ hmem, rfl⟩
  · intro nm b hmem
    exact List.mem_filterMap.mpr
      ⟨PyNode.classDef nm b, reachL_subset_walk tree _ hmem, rfl⟩

/-- C6 witness: a file with a nested function (inside a class, inside a
top-level function) — all names are discovered, the entry truncates to the
first 3 functions and 2 classes in breadth-first order. -/
theorem c6_whole_tree_names_witness :
    (analyze_codebase (some [(⟨"mod.py", "".data, Except.ok
        [PyNode.funcDef "top1" [PyNode.funcDef "inner1" []],
         PyNode.classDef "C1" [PyNode.funcDef "method1" []],
         PyNode.funcDef "top2" [],
         PyNode.classDef "C2" [PyNode.classDef "Nested" []]]⟩ : PFile)])
        "src").2
      = [("mod", mkModuleInfo (⟨"mod.py", "".data, Except.ok
          [PyNode.funcDef "top1" [PyNode.funcDef "inner1" []],
           PyNode.classDef "C1" [PyNode.funcDef "method1" []],
           PyNode.funcDef "top2" [],
           PyNode.classDef "C2" [PyNode.classDef "Nested" []]]⟩ : PFile)
          [PyNode.funcDef "top1" [PyNode.funcDef "inner1" []],
           PyNode.classDef "C1" [PyNode.funcDef "method1" []],
           PyNode.funcDef "top2" [],
           PyNode.classDef "C2" [PyNode.classDef "Nested" []]])]
    ∧ "inner1" ∈ moduleFunctions
        [PyNode.funcDef "top1" [PyNode.funcDef "inner1" []],
         PyNode.classDef "C1" [PyNode.funcDef "method1" []],
         PyNode.funcDef "top2" [],
         PyNode.classDef "C2" [PyNode.classDef "Nested" []]] := by
  have h := c6_whole_tree_names (⟨"mod.py", "".data, Except.ok
      [PyNode.funcDef "top1" [PyNode.funcDef "inner1" []],
       PyNode.classDef "C1" [PyNode.funcDef "method1" []],
       PyNode.funcDef "top2" [],
       PyNode.classDef "C2" [PyNode.classDef "Nested" []]]⟩ : PFile)
    [PyNode.funcDef "top1" [PyNode.funcDef "inner1" []],
     PyNode.classDef "C1" [PyNode.funcDef "method1" []],
     PyNode.funcDef "top2" [],
     PyNode.classDef "C2" [PyNode.classDef "Nested" []]] "src"
    (by decide) rfl
  refine ⟨h.1, ?_⟩
  apply h.2.2.2.1 "inner1" []
  simp [reachL, PyNode.reach]

/-- C7 counterexample: a scanned file whose 40-character stem is absent from
the fallback table yields the synthesized description
"<module_name> module" of 47 characters, exceeding the claimed bound 43. -/
theorem c7_counterexample :
    ∃ p ∈ (analyze_codebase
        (some [(⟨"aaaaaaaaaaaaaaaaaaaaaaaaaaaaaaaaaaaaaaaa.py", [],
          Except.ok []⟩ : PFile)]) "src").2,
      43 < p.2.description.length := by decide

/-- C7 amended: every description is at most 43 characters provided the
module name has at most 36 characters — the docstring branch and the
fallback table always stay within 43, but the synthesized fallback is
the module name plus a 7-character suffix and is unbounded in general. -/
theorem c7_description_bounded (content module_name : List Char)
    (h : module_name.length ≤ 36) :
    (get_module_description content module_name).length ≤ 43 := by
  unfold get_module_description
  rcases hf : (((splitOnNl content).take 5).map pyStrip).find? hasTripleQuote
    with _ | line
  · rcases hd : dictGet module_name fallbackDescriptions with _ | v
    · show (module_name ++ " module".data).length ≤ 43
      simp [List.length_append]
      omega
    · show v.length ≤ 43
      have := (fallback_value_bounds module_name v (dictGet_mem _ _ _ hd)).1
      omega
  · show (if (pyStrip (removeTriple squote (removeTriple dquote line))).length
          > 40
        then (pyStrip (removeTriple squote (removeTriple dquote line))).take 40
          ++ "...".data
        else pyStrip (removeTriple squote (removeTriple dquote line))).length
      ≤ 43
    by_cases hlen :
        40 < (pyStrip (removeTriple squote (removeTriple dquote line))).length
    · rw [if_pos hlen]
      simp [List.length_append, List.length_take]
    · rw [if_neg hlen]
      omega

/-- C7 witness: a short module name on docstring-free content stays within
the bound. -/
theorem c7_description_bounded_witness :
    "foo".data.length ≤ 36
    ∧ (get_module_description "".data "foo".data).length ≤ 43 :=
  ⟨by decide, c7_description_bounded "".data "foo".data (by decide)⟩

/-- C8 counterexample: scanning the directory "lib" records the file path
"src/a.py", which is not the path "lib/a.py" of the file actually
scanned — the "src/" prefix is hard-coded in the f-string. -/
theorem c8_counterexample :
    ((analyze_codebase (some [(⟨"a.py", [], Except.ok []⟩ : PFile)])
        "lib").2.map (fun p => p.2.file)) = ["src/a.py"]
    ∧ ("src/a.py" : String) ≠ "lib" ++ "/" ++ "a.py" :=
  ⟨by decide, by decide⟩

/-- C8 amended: the file_path recorded in each ModuleInfo is always the
string "src/" followed by the file name, whatever directory was scanned; it
therefore points to the scanned file exactly when the scanned directory is
the default "src". -/
theorem c8_recorded_path (f : PFile) (tree : List PyNode) (d : String)
    (hname : f.excluded = false) (h : f.parsed = Except.ok tree) :
    (analyze_codebase (some [f]) d).2 = [(f.stem, mkModuleInfo f tree)]
    ∧ (mkModuleInfo f tree).file = "src/" ++ f.name
    ∧ (d = "src" → (mkModuleInfo f tree).file = d ++ "/" ++ f.name) := by
  refine ⟨?_, rfl, ?_⟩
  · show (analyzeFrom d ([], []) [f]).2 = _
    simp only [analyzeFrom, processFile]
    rw [if_neg (by simp [hname]), h]
    rfl
  · rintro rfl
    show "src/" ++ f.name = "src" ++ "/" ++ f.name
    rfl

/-- C8 witness: on the default directory the recorded path does point to
the scanned file. -/
theorem c8_recorded_path_witness :
    (analyze_codebase (some [(⟨"cli.py", "".data, Except.ok []⟩ : PFile)])
        "src").2
      = [((⟨"cli.py", "".data, Except.ok []⟩ : PFile).stem,
          mkModuleInfo (⟨"cli.py", "".data, Except.ok []⟩ : PFile) [])]
    ∧ (mkModuleInfo (⟨"cli.py", "".data, Except.ok []⟩ : PFile) []).file
        = "src/" ++ "cli.py"
    ∧ (mkModuleInfo (⟨"cli.py", "".data, Except.ok []⟩ : PFile) []).file
        = "src" ++ "/" ++ "cli.py" := by
  have h := c8_recorded_path (⟨"cli.py", "".data, Except.ok []⟩ : PFile) []
    "src" rfl rfl
  exact ⟨h.1, h.2.1, h.2.2 rfl⟩

/-- C9: a directory holding exactly cli.py (marker-free first 5 lines,
successfully parsed) and __init__.py yields a one-entry mapping keyed "cli"
whose description is the fallback table's "CLI with argument parsing";
the package marker is excluded by the double-underscore prefix rule. -/
theorem c9_end_to_end (c i : List Char) (t : List PyNode)
    (pInit : Except String (List PyNode)) (d : String)
    (h : ∀ l ∈ ((splitOnNl c).take 5).map pyStrip, hasTripleQuote l = false) :
    (analyze_codebase (some [(⟨"cli.py", c, Except.ok t⟩ : PFile),
        (⟨"__init__.py", i, pInit⟩ : PFile)]) d).2
      = [("cli", mkModuleInfo (⟨"cli.py", c, Except.ok t⟩ : PFile) t)]
    ∧ (mkModuleInfo (⟨"cli.py", c, Except.ok t⟩ : PFile) t).description
        = "CLI with argument parsing".data := by
  constructor
  · show (analyzeFrom d ([], [])
        [(⟨"cli.py", c, Except.ok t⟩ : PFile),
         (⟨"__init__.py", i, pInit⟩ : PFile)]).2 = _
    rw [show analyzeFrom d ([], [])
          [(⟨"cli.py", c, Except.ok t⟩ : PFile),
           (⟨"__init__.py", i, pInit⟩ : PFile)]
        = processFile d (⟨"__init__.py", i, pInit⟩ : PFile)
            (processFile d (⟨"cli.py", c, Except.ok t⟩ : PFile) ([], []))
        from rfl]
    rw [processFile_entry d (⟨"cli.py", c, Except.ok t⟩ : PFile) t ([], [])
        rfl rfl]
    rw [processFile_skip d (⟨"__init__.py", i, pInit⟩ : PFile) _ rfl]
    rfl
  · show get_module_description c "cli".data
        = "CLI with argument parsing".data
    exact (gmd_no_marker c "cli".data h).trans (by decide)

/-- C9 witness: a concrete marker-free cli.py next to a package marker. -/
theorem c9_end_to_end_witness :
    (analyze_codebase (some [(⟨"cli.py", "x = 1".data, Except.ok []⟩ : PFile),
        (⟨"__init__.py", "".data, Except.ok []⟩ : PFile)]) "src").2
      = [("cli",
          mkModuleInfo (⟨"cli.py", "x = 1".data, Except.ok []⟩ : PFile) [])]
    ∧ (mkModuleInfo (⟨"cli.py", "x = 1".data, Except.ok []⟩ : PFile)
        []).description = "CLI with argument parsing".data :=
  c9_end_to_end "x = 1".data "".data [] (Except.ok []) "src" (by decide)

/-- C10: when the first marker line of the first 5 reduces to the empty
string after removing the quote markers and whitespace, the resolver
returns the empty description for every module name — the fallback table
and the synthesized fallback are never consulted. -/
theorem c10_empty_docstring (content module_name line : List Char)
    (h : (((splitOnNl content).take 5).map pyStrip).find? hasTripleQuote
      = some line)
    (h2 : pyStrip (removeTriple squote (removeTriple dquote line)) = []) :
    get_module_description content module_name = [] := by
  unfold get_module_description
  rw [h]
  simp only [h2]
  rfl

/-- C10 witness: a first line consisting solely of three double quotes,
with a module name that is a fallback-table key — the table is still not
consulted. -/
theorem c10_empty_docstring_witness :
    get_module_description "\"\"\"".data "cli".data = [] :=
  c10_empty_docstring "\"\"\"".data "cli".data "\"\"\"".data
    (by decide) (by decide)
